import Mathlib

/-!
Shallow embedding of the RVex terminal editor (src/main.rs) and proofs about
its editor state machine: buffer model, cursor invariants, per-mode key
dispatch, command execution, save, and the frame renderer.

Conventions of the embedding:
* A buffer line is a `List Char` (Rust iterates `line.chars()` for all column
  arithmetic; byte-level structure is recovered through `Char.utf8Size` where
  the source indexes by bytes, namely `str::split_at`).
* Machine integers (`usize`) are `Nat`.  Where the source performs unchecked
  `usize` subtraction or slice/`Vec` indexing that panics when out of range,
  the embedded operation returns `Option` with `none` standing for the panic;
  `saturating_sub` is ordinary `Nat` subtraction.
* `fs::write` is external I/O: its outcome is threaded in as an oracle value
  `Option String` (`none` = `Ok`, `some e` = `Err e`, `e` the display of the
  error), and the payload the code would write is modelled separately.
-/

/-- The three editor modes (`enum Mode` in the source). -/
inductive Mode where
  | Normal
  | Insert
  | Command
deriving DecidableEq, Repr

/-- The key codes the editor dispatches on (the subset of
`crossterm::event::KeyCode` the source matches; every other key is `Other`
and falls into the source's catch-all arms). -/
inductive KeyCode where
  | Char (c : Char)
  | Left
  | Right
  | Up
  | Down
  | Esc
  | Backspace
  | Delete
  | Enter
  | Other
deriving DecidableEq, Repr

/-- A key event: code plus the `KeyModifiers` bitflags
(SHIFT = 1, CONTROL = 2, ALT = 4, as in crossterm). -/
structure KeyEvent where
  code : KeyCode
  mods : Nat
deriving DecidableEq, Repr

/-- Test for `modifiers.contains(KeyModifiers::CONTROL)`: bit 1 of the flags. -/
def hasCtrl (mods : Nat) : Bool :=
  mods &&& 2 != 0

/-- Test for `modifiers != KeyModifiers::NONE`. -/
def hasAnyMods (mods : Nat) : Bool :=
  mods != 0

/-- Rust `char::is_control`: the Unicode Cc category,
U+0000..U+001F and U+007F..U+009F. -/
def charIsControl (c : Char) : Bool :=
  c.toNat < 0x20 || (0x7f ≤ c.toNat && c.toNat ≤ 0x9f)

/-- Model of `struct EditorState` from the source.  `content` is the line buffer,
`cursorRow`/`cursorCol` the `cursor` pair, `screenRows`/`screenCols` the
`screen_size` pair. -/
structure EditorState where
  mode : Mode
  cursorRow : Nat
  cursorCol : Nat
  content : List (List Char)
  filePath : String
  statusMessage : Option String
  screenRows : Nat
  screenCols : Nat
  shouldExit : Bool
  commandBuffer : List Char
deriving DecidableEq, Repr

/-- Rust `Vec::remove(i)`: returns the removed element and the shortened
vector; `none` models the panic when `i` is out of range. -/
def vecRemove (l : List α) (i : Nat) : Option (α × List α) :=
  if h : i < l.length then some (l.get ⟨i, h⟩, l.eraseIdx i) else none

/-- Insertion at position `i` (the total core of Rust `Vec::insert`). -/
def listInsertAt : List α → Nat → α → List α
  | l, 0, a => a :: l
  | [], _ + 1, _ => []
  | x :: xs, n + 1, a => x :: listInsertAt xs n a

/-- Rust `Vec::insert(i, a)`: `none` models the panic when `i > len`. -/
def vecInsert (l : List α) (i : Nat) (a : α) : Option (List α) :=
  if i ≤ l.length then some (listInsertAt l i a) else none

/-- Rust `str::split_at(k)` on a line, `k` a BYTE offset: splits when `k`
lands on a UTF-8 character boundary, `none` models the panic when it lands
inside a multi-byte character or beyond the end. -/
def splitAtByte : List Char → Nat → Option (List Char × List Char)
  | l, 0 => some ([], l)
  | [], _ + 1 => none
  | c :: cs, k + 1 =>
    if c.utf8Size ≤ k + 1 then
      match splitAtByte cs (k + 1 - c.utf8Size) with
      | some (a, b) => some (c :: a, b)
      | none => none
    else none

/-- Rust `Vec::join("\n")` on the line buffer: the lines with a newline
between consecutive lines. -/
def joinLines : List (List Char) → List Char
  | [] => []
  | [l] => l
  | l :: ls => l ++ '\n' :: joinLines ls

/-- The exact text `save_file` passes to `fs::write`:
`self.content.join("\n")`. -/
def savePayload (s : EditorState) : String :=
  String.mk (joinLines s.content)

/-- Model of `EditorState::save_file`, with the outcome of `fs::write` supplied as
`writeErr` (`none` = success, `some e` = failure displaying as `e`). -/
def saveFile (writeErr : Option String) (s : EditorState) : EditorState :=
  match writeErr with
  | none => { s with statusMessage := some ("File saved") }
  | some e => { s with statusMessage := some ("Save error: " ++ e) }

/-- Row-clamping first half of `adjust_column`: when the row is past the
end, move it to `len().saturating_sub(1)`. -/
def rowClamp (s : EditorState) : EditorState :=
  if s.content.length ≤ s.cursorRow then { s with cursorRow := s.content.length - 1 }
  else s

/-- Model of `EditorState::adjust_column`.  The source first clamps the row, then
indexes `self.content[self.cursor.0]` — which panics (`none`) when the
buffer is empty — and finally clamps the column to the line's char count. -/
def adjustColumn (s : EditorState) : Option EditorState :=
  match (rowClamp s).content.get? (rowClamp s).cursorRow with
  | none => none
  | some line =>
    if line.length < (rowClamp s).cursorCol then
      some { rowClamp s with cursorCol := line.length }
    else some (rowClamp s)

/-- Normal-mode `h` / Left arm: `cursor.1.saturating_sub(1)`. -/
def nmLeft (s : EditorState) : Option EditorState :=
  some { s with cursorCol := s.cursorCol - 1 }

/-- Normal-mode `j` / Down arm. -/
def nmDown (s : EditorState) : Option EditorState :=
  if s.cursorRow < s.content.length - 1 then
    adjustColumn { s with cursorRow := s.cursorRow + 1 }
  else some s

/-- Normal-mode `k` / Up arm. -/
def nmUp (s : EditorState) : Option EditorState :=
  adjustColumn { s with cursorRow := s.cursorRow - 1 }

/-- Normal-mode `l` / Right arm; indexes the current line (panic when the
row is out of range). -/
def nmRight (s : EditorState) : Option EditorState :=
  match s.content.get? s.cursorRow with
  | none => none
  | some line =>
    if s.cursorCol < line.length then some { s with cursorCol := s.cursorCol + 1 }
    else some s

/-- Normal-mode `$` arm (`move_to_line_end`); indexes the current line. -/
def nmLineEnd (s : EditorState) : Option EditorState :=
  match s.content.get? s.cursorRow with
  | none => none
  | some line => some { s with cursorCol := line.length }

/-- Normal-mode `o` arm: insert an empty line after the cursor row, move to
its start, enter Insert mode. -/
def nmOpenLine (s : EditorState) : Option EditorState :=
  match vecInsert s.content (s.cursorRow + 1) [] with
  | none => none
  | some c =>
    some { s with content := c, cursorRow := s.cursorRow + 1, cursorCol := 0,
                  mode := Mode.Insert }

/-- Normal-mode Ctrl+D arm: remove the current line; afterwards the row —
and only the row — is clamped, and only when the buffer is still
non-empty. -/
def nmDeleteLine (s : EditorState) : Option EditorState :=
  if s.content.isEmpty then some s
  else
    match vecRemove s.content s.cursorRow with
    | none => none
    | some (_, rest) =>
      if rest.length ≤ s.cursorRow ∧ ¬rest.isEmpty then
        some { s with content := rest, cursorRow := rest.length - 1 }
      else
        some { s with content := rest }

/-- Model of `handle_normal_mode`, arm for arm in source order; the `if ctrl` guards
of the `w`/`q`/`d` arms fall through to the catch-all no-op when the CONTROL
modifier is absent.  `saveErr` is the oracle for the `fs::write` outcome
should the save binding fire. -/
def handleNormalMode (saveErr : Option String) (ev : KeyEvent) (s : EditorState) :
    Option EditorState :=
  match ev.code with
  | KeyCode.Left => nmLeft s
  | KeyCode.Down => nmDown s
  | KeyCode.Up => nmUp s
  | KeyCode.Right => nmRight s
  | KeyCode.Char c =>
    if c = 'h' then nmLeft s
    else if c = 'j' then nmDown s
    else if c = 'k' then nmUp s
    else if c = 'l' then nmRight s
    else if c = 'i' then some { s with mode := Mode.Insert }
    else if c = ':' then some { s with mode := Mode.Command }
    else if c = '0' then some { s with cursorCol := 0 }
    else if c = '$' then nmLineEnd s
    else if c = 'w' then
      if hasCtrl ev.mods then some (saveFile saveErr s) else some s
    else if c = 'q' then
      if hasCtrl ev.mods then some { s with shouldExit := true } else some s
    else if c = 'o' then nmOpenLine s
    else if c = 'd' then
      if hasCtrl ev.mods then nmDeleteLine s else some s
    else some s
  | _ => some s

/-- Model of `handle_insert_mode`, arm for arm.  Indexing the current line, removing
or inserting a char out of range, and a byte split off a char boundary are
the panics (`none`). -/
def handleInsertMode (ev : KeyEvent) (s : EditorState) : Option EditorState :=
  match ev.code with
  | KeyCode.Esc => some { s with mode := Mode.Normal }
  | KeyCode.Backspace =>
    if 0 < s.cursorCol then
      match s.content.get? s.cursorRow with
      | none => none
      | some line =>
        if s.cursorCol - 1 < line.length then
          some { s with content := s.content.set s.cursorRow (line.eraseIdx (s.cursorCol - 1)),
                        cursorCol := s.cursorCol - 1 }
        else none
    else if 0 < s.cursorRow then
      match vecRemove s.content s.cursorRow with
      | none => none
      | some (cur, rest) =>
        match rest.get? (s.cursorRow - 1) with
        | none => none
        | some prev =>
          some { s with content := rest.set (s.cursorRow - 1) (prev ++ cur),
                        cursorRow := s.cursorRow - 1,
                        cursorCol := prev.length }
    else some s
  | KeyCode.Delete =>
    match s.content.get? s.cursorRow with
    | none => none
    | some line =>
      if s.cursorCol < line.length then
        some { s with content := s.content.set s.cursorRow (line.eraseIdx s.cursorCol) }
      else some s
  | KeyCode.Enter =>
    match s.content.get? s.cursorRow with
    | none => none
    | some line =>
      match splitAtByte line s.cursorCol with
      | none => none
      | some (left, right) =>
        match vecInsert (s.content.set s.cursorRow left) (s.cursorRow + 1) right with
        | none => none
        | some c =>
          some { s with content := c, cursorRow := s.cursorRow + 1, cursorCol := 0 }
  | KeyCode.Char c =>
    if charIsControl c || hasAnyMods ev.mods then some s
    else
      match s.content.get? s.cursorRow with
      | none => none
      | some line =>
        if s.cursorCol ≤ line.length then
          some { s with content := s.content.set s.cursorRow (listInsertAt line s.cursorCol c),
                        cursorCol := s.cursorCol + 1 }
        else none
  | _ => some s

/-- Model of `handle_command_mode`: execute the accumulated command buffer by exact
match, then clear it.  The mode field is not touched. -/
def handleCommandMode (saveErr : Option String) (s : EditorState) : EditorState :=
  let s1 :=
    if s.commandBuffer = "w".toList then saveFile saveErr s
    else if s.commandBuffer = "q".toList then { s with shouldExit := true }
    else if s.commandBuffer = "wq".toList then
      { saveFile saveErr s with shouldExit := true }
    else
      { s with statusMessage := some ("Unknown command: " ++ String.mk s.commandBuffer) }
  { s1 with commandBuffer := [] }

/-- The key dispatch of the main event loop: Normal and Insert delegate to
their handlers; Command-mode keys are handled inline in `main`. -/
def dispatchKey (saveErr : Option String) (ev : KeyEvent) (s : EditorState) :
    Option EditorState :=
  match s.mode with
  | Mode.Normal => handleNormalMode saveErr ev s
  | Mode.Insert => handleInsertMode ev s
  | Mode.Command =>
    match ev.code with
    | KeyCode.Enter => some (handleCommandMode saveErr s)
    | KeyCode.Char c => some { s with commandBuffer := s.commandBuffer ++ [c] }
    | KeyCode.Backspace => some { s with commandBuffer := s.commandBuffer.dropLast }
    | KeyCode.Esc => some { s with mode := Mode.Normal, commandBuffer := [] }
    | _ => some s

/-- Model of `EditorState::new`: the file's lines (empty list when the file is
missing or unreadable), with a single empty line pushed when that list is
empty; Normal mode, cursor at the origin, everything else cleared. -/
def initState (path : String) (fileLines : List (List Char)) (rows cols : Nat) :
    EditorState :=
  { mode := Mode.Normal, cursorRow := 0, cursorCol := 0,
    content := if fileLines.isEmpty then [[]] else fileLines,
    filePath := path, statusMessage := none,
    screenRows := rows, screenCols := cols,
    shouldExit := false, commandBuffer := [] }

/-- The states the event loop can reach: the initial state, a key dispatch
step (with an arbitrary oracle for the save outcome), and the per-iteration
refresh of the stored screen size. -/
inductive Reachable : EditorState → Prop where
  | init (path : String) (fileLines : List (List Char)) (rows cols : Nat) :
      Reachable (initState path fileLines rows cols)
  | step (saveErr : Option String) (ev : KeyEvent) (s s' : EditorState) :
      Reachable s → dispatchKey saveErr ev s = some s' → Reachable s'
  | resize (r c : Nat) (s : EditorState) :
      Reachable s → Reachable { s with screenRows := r, screenCols := c }

/-- Right-aligned padding to width `w` with spaces (Rust `format!` with a
numeric width on an integer argument). -/
def padLeft (w : Nat) (str : String) : String :=
  String.mk (List.replicate (w - str.length) ' ') ++ str

/-- Left-aligned padding to width `w` with spaces (Rust `\x7b:<width$\x7d`). -/
def padRight (w : Nat) (str : String) : String :=
  str ++ String.mk (List.replicate (w - str.length) ' ')

/-- One iteration of the `draw_content` loop: the gutter
(`\x1b[row+1;1H`, blue, the 1-based number right-aligned to 4, a space,
reset) followed by the line's chars truncated to `cols - 5` columns at
`\x1b[row+1;6H`.  The `usize` subtraction `cols - 5` is unchecked in the
source; `none` models its overflow when `cols < 5`. -/
def contentRow (cols row : Nat) (line : List Char) : Option String :=
  if cols < 5 then none
  else
    some ("\x1b[" ++ toString (row + 1) ++ ";1H\x1b[34m" ++ padLeft 4 (toString (row + 1))
      ++ " \x1b[0m" ++ "\x1b[" ++ toString (row + 1) ++ ";6H" ++ String.mk (line.take (cols - 5)))

/-- The `draw_content` loop over the enumerated visible lines. -/
def drawRows (cols : Nat) : Nat → List (List Char) → Option String
  | _, [] => some ""
  | row, l :: ls =>
    match contentRow cols row l, drawRows cols (row + 1) ls with
    | some r, some rest => some (r ++ rest)
    | _, _ => none

/-- `draw_content`: at most `screen_size.0 - 1` buffer lines are drawn; the
unchecked `usize` subtraction overflows (`none`) when the stored row count
is zero. -/
def drawContent (cols : Nat) (s : EditorState) : Option String :=
  if s.screenRows = 0 then none
  else drawRows cols 0 (s.content.take (s.screenRows - 1))

/-- The display name of each mode in the status bar. -/
def modeName : Mode → String
  | Mode.Normal => "NORMAL"
  | Mode.Insert => "INSERT"
  | Mode.Command => "COMMAND"

/-- The inner text of the status bar: mode name, file path and the 1-based
cursor position. -/
def statusText (s : EditorState) : String :=
  " " ++ modeName s.mode ++ " | " ++ s.filePath ++ " | "
    ++ toString (s.cursorRow + 1) ++ ":" ++ toString (s.cursorCol + 1) ++ " "

/-- The status bar row: inverse-video styled, the text left-padded to
`cols - 1` columns; the unchecked `usize` subtraction overflows (`none`)
when `cols = 0`. -/
def statusLine (rows cols : Nat) (s : EditorState) : Option String :=
  if cols = 0 then none
  else
    some ("\x1b[" ++ toString rows ++ ";1H\x1b[44m\x1b[37m"
      ++ padRight (cols - 1) (statusText s) ++ "\x1b[0m")

/-- The final cursor-positioning escape sequence of a frame, clamped to the
viewport. -/
def cursorSeq (rows cols : Nat) (s : EditorState) : String :=
  "\x1b[" ++ toString (min (s.cursorRow + 1) rows) ++ ";"
    ++ toString (min (s.cursorCol + 6) cols) ++ "H"

/-- One full frame of the event loop: store the freshly queried screen size,
clear the screen, home the cursor, draw the content rows, the status bar,
and position the cursor. -/
def renderFrame (rows cols : Nat) (s0 : EditorState) : Option String :=
  let s := { s0 with screenRows := rows, screenCols := cols }
  match drawContent cols s, statusLine rows cols s with
  | some dc, some sl => some ("\x1b[2J" ++ "\x1b[1;1H" ++ dc ++ sl ++ cursorSeq rows cols s)
  | _, _ => none

/-- The session at startup on a missing or empty file named `f`: the
canonical one-empty-line buffer. -/
def emptyFileInit : EditorState :=
  initState ("f") [] 24 80

/-- The state the Ctrl+D dispatch produces from `emptyFileInit`: the buffer
has become the empty list of lines. -/
def c1After : EditorState :=
  { emptyFileInit with content := [] }

/-- Insert mode on the single line `éab` with the cursor after the second
character (column 2, a valid character column: the line has 3 chars). -/
def c2State : EditorState :=
  { initState ("f") ["éab".toList] 24 80 with mode := Mode.Insert, cursorCol := 2 }

/-- What the Enter dispatch produces from `c2State`: the line was split
after its first two BYTES — one character — not after two characters. -/
def c2After : EditorState :=
  { c2State with content := ["é".toList, "ab".toList], cursorRow := 1, cursorCol := 0 }

/-- Command mode with the accumulated command text `zz`. -/
def c3State : EditorState :=
  { initState ("f") [] 24 80 with mode := Mode.Command, commandBuffer := "zz".toList }

/-- What the Enter dispatch produces from `c3State`: status message set and
command buffer cleared, everything else — the mode included — untouched. -/
def c3After : EditorState :=
  { c3State with statusMessage := some ("Unknown command: zz"), commandBuffer := [] }

/-- A session with one non-empty buffer line, for rendering. -/
def c4State : EditorState :=
  initState ("f") ["hello".toList] 24 4

/-- Insert mode on the buffer `["one", "two"]` with the cursor at the start
of the second line. -/
def c7State : EditorState :=
  { initState ("f") ["one".toList, "two".toList] 24 80 with
      mode := Mode.Insert, cursorRow := 1 }

/-- Insert mode on the single line `ab` with the cursor at column 1. -/
def c8State : EditorState :=
  { initState ("f") ["ab".toList] 24 80 with mode := Mode.Insert, cursorCol := 1 }

/-- Command mode with some already-accumulated text, for the append test. -/
def c9CmdState : EditorState :=
  { initState ("f") [] 24 80 with mode := Mode.Command, commandBuffer := "w".toList }

/-- Insert mode on the line `ab`, for the ignored-character test. -/
def c9InsState : EditorState :=
  { initState ("f") ["ab".toList] 24 80 with mode := Mode.Insert }

/-- Reading below an erased index is unaffected by the erasure. -/
theorem get?_eraseIdx_lt (l : List α) : ∀ (i j : Nat), j < i →
    (l.eraseIdx i).get? j = l.get? j := by
  induction l with
  | nil => intro i j _; rfl
  | cons x xs ih =>
    intro i j hj
    cases i with
    | zero => omega
    | succ i =>
      cases j with
      | zero => rfl
      | succ j => simpa [List.eraseIdx] using ih i j (by omega)

/-- Erasing index `r + 1` and then overwriting index `r` splices the list
around the two original elements at `r` and `r + 1`. -/
theorem eraseIdx_succ_set (x : α) : ∀ (l : List α) (r : Nat), r + 1 < l.length →
    (l.eraseIdx (r + 1)).set r x = l.take r ++ x :: l.drop (r + 2) := by
  intro l
  induction l with
  | nil => intro r h; simp at h
  | cons a t ih =>
    intro r h
    cases r with
    | zero =>
      cases t with
      | nil => simp at h
      | cons b t' => simp [List.eraseIdx]
    | succ r =>
      simp only [List.eraseIdx, List.set, List.take, List.drop]
      rw [ih r (by simpa using h)]
      rfl

/-- Reading an in-range index just written gives the written value. -/
theorem get?_set_self (a : α) : ∀ (l : List α) (n : Nat), n < l.length →
    (l.set n a).get? n = some a := by
  intro l
  induction l with
  | nil => intro n h; simp at h
  | cons x xs ih =>
    intro n h
    cases n with
    | zero => rfl
    | succ n => simpa [List.set] using ih n (by simpa using h)

/-- Writing back the value already stored at an index is the identity. -/
theorem set_get?_id (a : α) : ∀ (l : List α) (n : Nat), l.get? n = some a →
    l.set n a = l := by
  intro l
  induction l with
  | nil => intro n h; simp at h
  | cons x xs ih =>
    intro n h
    cases n with
    | zero => simp_all [List.set]
    | succ n => simp_all [List.set]

/-- In-range insertion grows the length by one. -/
theorem length_listInsertAt (c : α) : ∀ (l : List α) (k : Nat), k ≤ l.length →
    (listInsertAt l k c).length = l.length + 1 := by
  intro l
  induction l with
  | nil =>
    intro k hk
    cases k with
    | zero => rfl
    | succ k => simp at hk
  | cons x xs ih =>
    intro k hk
    cases k with
    | zero => rfl
    | succ k => simpa [listInsertAt] using ih k (by simpa using hk)

/-- Erasing the index just inserted at undoes the insertion. -/
theorem eraseIdx_listInsertAt (c : α) : ∀ (l : List α) (k : Nat), k ≤ l.length →
    (listInsertAt l k c).eraseIdx k = l := by
  intro l
  induction l with
  | nil =>
    intro k hk
    cases k with
    | zero => rfl
    | succ k => simp at hk
  | cons x xs ih =>
    intro k hk
    cases k with
    | zero => rfl
    | succ k => simpa [listInsertAt, List.eraseIdx] using ih k (by simpa using hk)

/-- The source's `join("\n")` is the standard intercalation of the lines
with a newline separator. -/
theorem joinLines_eq_intercalate : ∀ ls : List (List Char),
    joinLines ls = List.intercalate ['\n'] ls := by
  intro ls
  induction ls with
  | nil => rfl
  | cons l t ih =>
    cases t with
    | nil => simp [joinLines, List.intercalate, List.intersperse]
    | cons l2 t2 =>
      simp only [joinLines] at ih ⊢
      rw [ih]
      simp [List.intercalate, List.intersperse_cons_cons]

/-- Claim C1: refuted on the code — from the freshly loaded one-empty-line
session, one Ctrl+D dispatch reaches a state whose buffer is the EMPTY list
of lines, violating the non-emptiness part of the claimed reachable-state
invariant: the delete-line binding restores neither the at-least-one-line
invariant nor the column bound. -/
theorem c1_ctrl_d_empties_buffer :
    dispatchKey none ⟨KeyCode.Char 'd', 2⟩ emptyFileInit = some c1After
    ∧ c1After.content = []
    ∧ Reachable c1After := by
  refine ⟨by decide, rfl, ?_⟩
  exact Reachable.step none ⟨KeyCode.Char 'd', 2⟩ emptyFileInit c1After
    (Reachable.init ("f") [] 24 80) (by decide)

/-- Claim C2: refuted on the code — pressing Enter on the line `éab` at the
valid character column 2 splits at BYTE offset 2, producing `["é", "ab"]`
instead of the claimed first-2-characters split `["éa", "b"]`; and at
column 1 the byte offset falls inside the 2-byte character, where
`str::split_at` panics (`none`). -/
theorem c2_enter_splits_at_byte_offset :
    (handleInsertMode ⟨KeyCode.Enter, 0⟩ c2State = some c2After
      ∧ c2After.content = ["é".toList, "ab".toList]
      ∧ c2After.content ≠ ["éa".toList, "b".toList]
      ∧ c2After.cursorRow = 1 ∧ c2After.cursorCol = 0)
    ∧ handleInsertMode ⟨KeyCode.Enter, 0⟩ { c2State with cursorCol := 1 } = none := by
  exact ⟨⟨by decide, rfl, by decide, rfl, rfl⟩, by decide⟩

/-- Claim C3, counterexample: executing the unknown command `zz` leaves the
mode Command — it does not return to Navigation. -/
theorem c3_mode_stays_command :
    dispatchKey none ⟨KeyCode.Enter, 0⟩ c3State = some c3After
    ∧ c3After.mode = Mode.Command
    ∧ Mode.Command ≠ Mode.Normal := by
  exact ⟨by decide, rfl, by decide⟩

/-- Claim C3 as amended: in Command mode with accumulated text `zz`,
pressing Enter sets the status message `Unknown command: zz` and clears the
command buffer, and changes nothing else — the exit flag stays as it was,
the buffer and cursor are untouched, and the mode REMAINS Command. -/
theorem c3_unknown_command_effects (err : Option String) (m : Nat) (s : EditorState)
    (hm : s.mode = Mode.Command) (hb : s.commandBuffer = "zz".toList) :
    dispatchKey err ⟨KeyCode.Enter, m⟩ s
      = some { s with statusMessage := some ("Unknown command: zz"), commandBuffer := [] } := by
  obtain ⟨mo, cr, cc, co, fp, sm, sr, sc, se, cb⟩ := s
  simp only at hm hb
  subst hm hb
  rfl

/-- Concrete instance of `c3_unknown_command_effects`. -/
theorem c3_unknown_command_effects_witness :
    dispatchKey none ⟨KeyCode.Enter, 0⟩ c3State
      = some { c3State with statusMessage := some ("Unknown command: zz"), commandBuffer := [] } :=
  c3_unknown_command_effects none 0 c3State rfl rfl

/-- Claim C4: refuted on the code — with a 4-column viewport (narrower than
the 5-column gutter) and a non-empty buffer line, the truncation width
`cols - 5` is an unchecked `usize` subtraction, not a clamp: it overflows
(`none`, a panic under overflow checks; in release builds it wraps and no
truncation happens), so drawing a frame is not total. -/
theorem c4_render_underflow_when_narrow :
    drawContent 4 c4State = none ∧ renderFrame 24 4 c4State = none := by
  exact ⟨by decide, by decide⟩

/-- Claim C6: on a failed write, `save_file` only sets the status message to
`Save error: ` followed by the error's display — the exit flag, buffer,
cursor, mode and command buffer keep their values; on a successful write it
sets `File saved`; and the payload handed to `fs::write` is exactly the
buffer's lines intercalated with newline separators. -/
theorem c6_save_file_effects (s : EditorState) (e : String) :
    (saveFile (some e) s).statusMessage = some ("Save error: " ++ e)
    ∧ (saveFile (some e) s).shouldExit = s.shouldExit
    ∧ (saveFile (some e) s).content = s.content
    ∧ (saveFile (some e) s).cursorRow = s.cursorRow
    ∧ (saveFile (some e) s).cursorCol = s.cursorCol
    ∧ (saveFile (some e) s).mode = s.mode
    ∧ (saveFile (some e) s).commandBuffer = s.commandBuffer
    ∧ (saveFile none s).statusMessage = some ("File saved")
    ∧ (saveFile none s).content = s.content
    ∧ savePayload s = String.mk (List.intercalate ['\n'] s.content) := by
  refine ⟨rfl, rfl, rfl, rfl, rfl, rfl, rfl, rfl, rfl, ?_⟩
  simp [savePayload, joinLines_eq_intercalate]

/-- Claim C9: in Command mode every character key event is appended to the
command buffer, whatever its modifiers and even for control characters;
Insert mode, by contrast, ignores any character event that is a control
character or carries any modifier. -/
theorem c9_command_appends_insert_ignores :
    (∀ (err : Option String) (s : EditorState) (c : Char) (m : Nat),
        s.mode = Mode.Command →
        dispatchKey err ⟨KeyCode.Char c, m⟩ s
          = some { s with commandBuffer := s.commandBuffer ++ [c] })
    ∧ (∀ (s : EditorState) (c : Char) (m : Nat),
        charIsControl c = true ∨ hasAnyMods m = true →
        handleInsertMode ⟨KeyCode.Char c, m⟩ s = some s) := by
  constructor
  · intro err s c m hm
    obtain ⟨mo, cr, cc, co, fp, sm, sr, sc, se, cb⟩ := s
    simp only at hm
    subst hm
    rfl
  · intro s c m hcm
    have : (charIsControl c || hasAnyMods m) = true := by
      rcases hcm with h | h <;> simp [h]
    simp [handleInsertMode, this]

/-- Concrete instance of `c9_command_appends_insert_ignores`: Ctrl+modified
`w` is still appended in Command mode, and a control character is ignored
in Insert mode. -/
theorem c9_command_appends_insert_ignores_witness :
    dispatchKey none ⟨KeyCode.Char 'w', 2⟩ c9CmdState
      = some { c9CmdState with commandBuffer := c9CmdState.commandBuffer ++ ['w'] }
    ∧ handleInsertMode ⟨KeyCode.Char (Char.ofNat 1), 0⟩ c9InsState = some c9InsState :=
  ⟨c9_command_appends_insert_ignores.1 none c9CmdState 'w' 2 rfl,
   c9_command_appends_insert_ignores.2 c9InsState (Char.ofNat 1) 0 (Or.inl (by decide))⟩

/-- Claim C10: the rendered frame is independent of the stored status
message — two sessions differing only in that field render identical
content rows, an identical status bar, and an identical full frame. -/
theorem c10_frame_ignores_status_message (rows cols : Nat) (s : EditorState)
    (msg : Option String) :
    renderFrame rows cols { s with statusMessage := msg } = renderFrame rows cols s
    ∧ drawContent cols { s with statusMessage := msg } = drawContent cols s
    ∧ statusLine rows cols { s with statusMessage := msg } = statusLine rows cols s := by
  obtain ⟨mo, cr, cc, co, fp, sm, sr, sc, se, cb⟩ := s
  exact ⟨rfl, rfl, rfl⟩

/-- Claim C7: in Insert mode, Backspace at column 0 of row `r + 1` merges
the current line onto the end of the previous line, removes it, and puts
the cursor at the previous row with the column at the previous line's
former character count; at (0,0) Backspace leaves the state unchanged. -/
theorem c7_backspace_line_start :
    (∀ (err : Option String) (s : EditorState) (r : Nat) (prev cur : List Char),
        s.mode = Mode.Insert → s.cursorRow = r + 1 → s.cursorCol = 0 →
        s.content.get? r = some prev → s.content.get? (r + 1) = some cur →
        dispatchKey err ⟨KeyCode.Backspace, 0⟩ s
          = some { s with
              content := s.content.take r ++ (prev ++ cur) :: s.content.drop (r + 2),
              cursorRow := r, cursorCol := prev.length })
    ∧ (∀ (err : Option String) (s : EditorState),
        s.mode = Mode.Insert → s.cursorRow = 0 → s.cursorCol = 0 →
        dispatchKey err ⟨KeyCode.Backspace, 0⟩ s = some s) := by
  constructor
  · intro err s r prev cur hm hr hc hprev hcur
    obtain ⟨mo, cr, cc, co, fp, sm, sr, sc, se, cb⟩ := s
    simp only at hm hr hc hprev hcur ⊢
    subst hm hr hc
    have hlt : r + 1 < co.length := (List.get?_eq_some.mp hcur).1
    have hget : co.get ⟨r + 1, hlt⟩ = cur := (List.get?_eq_some.mp hcur).2
    simp only [dispatchKey, handleInsertMode, lt_irrefl, if_false, Nat.succ_pos,
      if_true, vecRemove, hlt, dif_pos, Nat.add_sub_cancel]
    rw [get?_eraseIdx_lt co (r + 1) r (Nat.lt_succ_self r), hprev]
    simp only [Option.some.injEq, EditorState.mk.injEq]
    rw [hget, eraseIdx_succ_set (prev ++ cur) co r hlt]
    simp
  · intro err s hm hr hc
    obtain ⟨mo, cr, cc, co, fp, sm, sr, sc, se, cb⟩ := s
    simp only at hm hr hc
    subst hm hr hc
    rfl

/-- Concrete instance of `c7_backspace_line_start`: from `["one", "two"]`
at (1,0), Backspace gives `["onetwo"]` with the cursor at (0,3). -/
theorem c7_backspace_line_start_witness :
    dispatchKey none ⟨KeyCode.Backspace, 0⟩ c7State
      = some { c7State with content := ["onetwo".toList], cursorRow := 0, cursorCol := 3 } := by
  have h := c7_backspace_line_start.1 none c7State 0 "one".toList "two".toList rfl rfl rfl rfl rfl
  exact h

/-- Claim C8: inserting a (non-control) character at any valid character
column `k` of the current line and then pressing Backspace restores the
original session exactly — line content and cursor column `k` included. -/
theorem c8_insert_backspace_roundtrip (err : Option String) (s : EditorState)
    (line : List Char) (c : Char)
    (hm : s.mode = Mode.Insert) (hline : s.content.get? s.cursorRow = some line)
    (hcol : s.cursorCol ≤ line.length) (hc : charIsControl c = false) :
    (dispatchKey err ⟨KeyCode.Char c, 0⟩ s).bind (dispatchKey err ⟨KeyCode.Backspace, 0⟩)
      = some s := by
  obtain ⟨mo, cr, cc, co, fp, sm, sr, sc, se, cb⟩ := s
  simp only at hm hline ⊢
  subst hm
  have hrow : cr < co.length := (List.get?_eq_some.mp hline).1
  have hguard : (charIsControl c || hasAnyMods 0) = false := by
    simp [hc, hasAnyMods]
  have hlen : (listInsertAt line cc c).length = line.length + 1 :=
    length_listInsertAt c line cc hcol
  have hget1 : (co.set cr (listInsertAt line cc c)).get? cr = some (listInsertAt line cc c) :=
    get?_set_self (listInsertAt line cc c) co cr hrow
  simp only [dispatchKey, handleInsertMode, hguard, Bool.false_eq_true, if_false, hline]
  rw [if_pos hcol]
  simp only [Option.some_bind, Nat.succ_pos, if_true, hget1, Nat.add_sub_cancel]
  rw [if_pos (show cc < (listInsertAt line cc c).length from hlen ▸ Nat.lt_succ_of_le hcol)]
  rw [eraseIdx_listInsertAt c line cc hcol, List.set_set, set_get?_id line co cr hline]

/-- Concrete instance of `c8_insert_backspace_roundtrip` on the line `ab`
at column 1 with the character `x`. -/
theorem c8_insert_backspace_roundtrip_witness :
    (dispatchKey none ⟨KeyCode.Char 'x', 0⟩ c8State).bind (dispatchKey none ⟨KeyCode.Backspace, 0⟩)
      = some c8State :=
  c8_insert_backspace_roundtrip none c8State "ab".toList 'x' rfl rfl (by decide) (by decide)

/-- Row clamping does not touch the command buffer. -/
theorem rowClamp_cb (s : EditorState) : (rowClamp s).commandBuffer = s.commandBuffer := by
  unfold rowClamp
  split <;> rfl

/-- Cursor adjustment does not touch the command buffer. -/
theorem adjustColumn_cb (s s' : EditorState) (h : adjustColumn s = some s') :
    s'.commandBuffer = s.commandBuffer := by
  unfold adjustColumn at h
  split at h
  · cases h
  · split_ifs at h <;> (injection h with h2; subst h2; exact rowClamp_cb s)

/-- Saving does not touch the command buffer. -/
theorem saveFile_cb (err : Option String) (s : EditorState) :
    (saveFile err s).commandBuffer = s.commandBuffer := by
  cases err <;> rfl

/-- Moving left does not touch the command buffer. -/
theorem nmLeft_cb (s s' : EditorState) (h : nmLeft s = some s') :
    s'.commandBuffer = s.commandBuffer := by
  injection h with h2
  subst h2
  rfl

/-- Moving down does not touch the command buffer. -/
theorem nmDown_cb (s s' : EditorState) (h : nmDown s = some s') :
    s'.commandBuffer = s.commandBuffer := by
  unfold nmDown at h
  split_ifs at h
  · exact adjustColumn_cb { s with cursorRow := s.cursorRow + 1 } s' h
  · injection h with h2; subst h2; rfl

/-- Moving up does not touch the command buffer. -/
theorem nmUp_cb (s s' : EditorState) (h : nmUp s = some s') :
    s'.commandBuffer = s.commandBuffer :=
  adjustColumn_cb { s with cursorRow := s.cursorRow - 1 } s' h

/-- Moving right does not touch the command buffer. -/
theorem nmRight_cb (s s' : EditorState) (h : nmRight s = some s') :
    s'.commandBuffer = s.commandBuffer := by
  unfold nmRight at h
  split at h
  · cases h
  · split_ifs at h <;> (injection h with h2; subst h2; rfl)

/-- Jumping to line end does not touch the command buffer. -/
theorem nmLineEnd_cb (s s' : EditorState) (h : nmLineEnd s = some s') :
    s'.commandBuffer = s.commandBuffer := by
  unfold nmLineEnd at h
  split at h
  · cases h
  · injection h with h2; subst h2; rfl

/-- Opening a line does not touch the command buffer. -/
theorem nmOpenLine_cb (s s' : EditorState) (h : nmOpenLine s = some s') :
    s'.commandBuffer = s.commandBuffer := by
  unfold nmOpenLine at h
  split at h
  · cases h
  · injection h with h2; subst h2; rfl

/-- Deleting a line does not touch the command buffer. -/
theorem nmDeleteLine_cb (s s' : EditorState) (h : nmDeleteLine s = some s') :
    s'.commandBuffer = s.commandBuffer := by
  unfold nmDeleteLine at h
  split at h
  · injection h with h2; subst h2; rfl
  · split at h
    · cases h
    · split_ifs at h <;> (injection h with h2; subst h2; rfl)

/-- No Normal-mode action touches the command buffer. -/
theorem handleNormalMode_cb (saveErr : Option String) (ev : KeyEvent) (s s' : EditorState)
    (h : handleNormalMode saveErr ev s = some s') :
    s'.commandBuffer = s.commandBuffer := by
  obtain ⟨code, mods⟩ := ev
  cases code <;> simp only [handleNormalMode] at h
  case Left => exact nmLeft_cb s s' h
  case Down => exact nmDown_cb s s' h
  case Up => exact nmUp_cb s s' h
  case Right => exact nmRight_cb s s' h
  case Char c =>
    by_cases h1 : c = 'h'
    · rw [if_pos h1] at h; exact nmLeft_cb s s' h
    rw [if_neg h1] at h
    by_cases h2 : c = 'j'
    · rw [if_pos h2] at h; exact nmDown_cb s s' h
    rw [if_neg h2] at h
    by_cases h3 : c = 'k'
    · rw [if_pos h3] at h; exact nmUp_cb s s' h
    rw [if_neg h3] at h
    by_cases h4 : c = 'l'
    · rw [if_pos h4] at h; exact nmRight_cb s s' h
    rw [if_neg h4] at h
    by_cases h5 : c = 'i'
    · rw [if_pos h5] at h; injection h with hx; subst hx; rfl
    rw [if_neg h5] at h
    by_cases h6 : c = ':'
    · rw [if_pos h6] at h; injection h with hx; subst hx; rfl
    rw [if_neg h6] at h
    by_cases h7 : c = '0'
    · rw [if_pos h7] at h; injection h with hx; subst hx; rfl
    rw [if_neg h7] at h
    by_cases h8 : c = '$'
    · rw [if_pos h8] at h; exact nmLineEnd_cb s s' h
    rw [if_neg h8] at h
    by_cases h9 : c = 'w'
    · rw [if_pos h9] at h
      by_cases hw : hasCtrl mods = true
      · rw [if_pos hw] at h; injection h with hx; subst hx; exact saveFile_cb saveErr s
      · rw [if_neg hw] at h; injection h with hx; subst hx; rfl
    rw [if_neg h9] at h
    by_cases h10 : c = 'q'
    · rw [if_pos h10] at h
      by_cases hq : hasCtrl mods = true
      · rw [if_pos hq] at h; injection h with hx; subst hx; rfl
      · rw [if_neg hq] at h; injection h with hx; subst hx; rfl
    rw [if_neg h10] at h
    by_cases h11 : c = 'o'
    · rw [if_pos h11] at h; exact nmOpenLine_cb s s' h
    rw [if_neg h11] at h
    by_cases h12 : c = 'd'
    · rw [if_pos h12] at h
      by_cases hd : hasCtrl mods = true
      · rw [if_pos hd] at h; exact nmDeleteLine_cb s s' h
      · rw [if_neg hd] at h; injection h with hx; subst hx; rfl
    rw [if_neg h12] at h
    injection h with hx; subst hx; rfl
  all_goals (injection h with hx; subst hx; rfl)

/-- No Insert-mode action touches the command buffer. -/
theorem handleInsertMode_cb (ev : KeyEvent) (s s' : EditorState)
    (h : handleInsertMode ev s = some s') :
    s'.commandBuffer = s.commandBuffer := by
  obtain ⟨code, mods⟩ := ev
  cases code <;> simp only [handleInsertMode] at h
  case Backspace =>
    by_cases h1 : 0 < s.cursorCol
    · rw [if_pos h1] at h
      split at h
      · cases h
      · split_ifs at h <;> first
          | (injection h with hx; subst hx; rfl)
          | (cases h)
    rw [if_neg h1] at h
    by_cases h2 : 0 < s.cursorRow
    · rw [if_pos h2] at h
      split at h
      · cases h
      · split at h
        · cases h
        · injection h with hx; subst hx; rfl
    · rw [if_neg h2] at h; injection h with hx; subst hx; rfl
  case Delete =>
    split at h
    · cases h
    · split_ifs at h <;> (injection h with hx; subst hx; rfl)
  case Enter =>
    split at h
    · cases h
    · split at h
      · cases h
      · split at h
        · cases h
        · injection h with hx; subst hx; rfl
  case Char c =>
    by_cases hg : (charIsControl c || hasAnyMods mods) = true
    · rw [if_pos hg] at h; injection h with hx; subst hx; rfl
    · rw [if_neg hg] at h
      split at h
      · cases h
      · split_ifs at h <;> first
          | (injection h with hx; subst hx; rfl)
          | (cases h)
  all_goals (injection h with hx; subst hx; rfl)

/-- Reachable-state invariant: outside Command mode the command buffer is
always empty — it starts empty, Normal and Insert dispatch never touch it,
and both exits that leave Command mode visible (execution keeps the mode,
Escape clears the buffer) re-establish it. -/
theorem reachable_cb_empty (s : EditorState) (h : Reachable s) :
    s.mode ≠ Mode.Command → s.commandBuffer = [] := by
  induction h with
  | init path fileLines rows cols => intro _; rfl
  | resize r c s hs ih => intro hm; exact ih hm
  | step saveErr ev s s' hs hd ih =>
    intro hm'
    cases hmode : s.mode
    case Normal =>
      have hd' : handleNormalMode saveErr ev s = some s' := by
        unfold dispatchKey at hd
        rw [hmode] at hd
        exact hd
      rw [handleNormalMode_cb saveErr ev s s' hd']
      exact ih (by rw [hmode]; intro hcc; cases hcc)
    case Insert =>
      have hd' : handleInsertMode ev s = some s' := by
        unfold dispatchKey at hd
        rw [hmode] at hd
        exact hd
      rw [handleInsertMode_cb ev s s' hd']
      exact ih (by rw [hmode]; intro hcc; cases hcc)
    case Command =>
      unfold dispatchKey at hd
      rw [hmode] at hd
      obtain ⟨code, mods⟩ := ev
      cases code
      case Enter =>
        injection hd with hx
        rw [← hx]
        rfl
      case Char c =>
        injection hd with hx
        have hmode' : s'.mode = Mode.Command := by rw [← hx]
        exact absurd hmode' hm'
      case Backspace =>
        injection hd with hx
        have hmode' : s'.mode = Mode.Command := by rw [← hx]
        exact absurd hmode' hm'
      case Esc =>
        injection hd with hx
        rw [← hx]
      all_goals
        (injection hd with hx
         rw [← hx] at hm'
         exact absurd hmode hm')

/-- Claim C5: in any reachable Navigation-mode state, pressing `:` changes
exactly the mode — to Command — and the command buffer, untouched by the
transition, is already empty, so Command mode always starts with an empty
accumulated command. -/
theorem c5_colon_enters_command (err : Option String) (m : Nat) (s : EditorState)
    (hr : Reachable s) (hm : s.mode = Mode.Normal) :
    dispatchKey err ⟨KeyCode.Char ':', m⟩ s = some { s with mode := Mode.Command }
    ∧ s.commandBuffer = [] := by
  constructor
  · obtain ⟨mo, cr, cc, co, fp, sm, sr, sc, se, cb⟩ := s
    simp only at hm
    subst hm
    rfl
  · exact reachable_cb_empty s hr (by rw [hm]; intro hcc; cases hcc)

/-- Concrete instance of `c5_colon_enters_command` at the initial state. -/
theorem c5_colon_enters_command_witness :
    dispatchKey none ⟨KeyCode.Char ':', 0⟩ emptyFileInit
      = some { emptyFileInit with mode := Mode.Command }
    ∧ emptyFileInit.commandBuffer = [] :=
  c5_colon_enters_command none 0 emptyFileInit (Reachable.init ("f") [] 24 80) rfl
